import Mathlib

/-!
# Verification of the Quiz Session Engine (`QuizEngine` in `quiz.py`)

This file gives a shallow embedding of the `QuizEngine` class of `quiz.py`
and proves the specification's claims about it.

Modelling conventions:
* Python dictionaries with fixed key sets become Lean structures
  (`Question`, `PresentedQuestion`, `AnswerRecord`, `SessionResult`).
* Floats (`time.time()` values and per-question durations) are modelled as
  rationals `ℚ`; wall-clock reads (`time.time()`) become an explicit `now`
  argument.
* `random.shuffle` is modelled by an explicit shuffle function
  `sh : List String → List String` supplied to the operation; theorems that
  depend on the shuffle being a real shuffle assume `∀ l, (sh l).Perm l`,
  which is exactly what `random.shuffle` guarantees.
* Python statements that can raise are modelled with `Option`: a result of
  `none` models an uncaught exception (`IndexError` from
  `shuffled_answers[answer_index]`).
* Python's `list[i]` indexing with a possibly negative `i` is modelled by
  `pyGet` below, and `list.index` by `pyIndex`.
-/

/-- A parsed question record, as produced by `APIHandler._parse_questions`:
keys `question`, `correct_answer`, `incorrect_answers`, `category`,
`difficulty`. -/
structure Question where
  question : String
  correct_answer : String
  incorrect_answers : List String
  category : String
  difficulty : String
deriving DecidableEq, Repr

/-- The dictionary returned by `QuizEngine.get_current_question`: a copy of
the stored question dict with the two extra keys `shuffled_answers` and
`correct_index`. -/
structure PresentedQuestion where
  question : String
  correct_answer : String
  incorrect_answers : List String
  category : String
  difficulty : String
  shuffled_answers : List String
  correct_index : Nat
deriving DecidableEq, Repr

/-- The per-answer dictionary appended to `self.user_answers` by
`QuizEngine.submit_answer`. -/
structure AnswerRecord where
  question : String
  user_answer : String
  correct_answer : String
  is_correct : Bool
  time_taken : ℚ
deriving DecidableEq, Repr

/-- The dictionary returned by `QuizEngine.get_final_results`. -/
structure SessionResult where
  score : Nat
  total_questions : Nat
  percentage : ℚ
  total_time : ℚ
  average_time_per_question : ℚ
  user_answers : List AnswerRecord
deriving DecidableEq, Repr

/-- The mutable state of a `QuizEngine` instance: fields set in
`QuizEngine.__init__` / reset in `QuizEngine.load_questions`. -/
structure QuizEngine where
  questions : List Question
  current_question : Nat
  score : Nat
  start_time : Option ℚ
  question_times : List ℚ
  user_answers : List AnswerRecord
deriving DecidableEq, Repr

/-- Python `l[i]` on a list, with an `int` index: non-negative indices are
looked up directly, negative indices wrap from the end (`l[-1]` is the last
element), and anything outside `[-len(l), len(l))` raises `IndexError`,
modelled as `none`. -/
def pyGet {α : Type} (l : List α) (i : Int) : Option α :=
  if 0 ≤ i then l[i.toNat]?
  else if -i ≤ (l.length : Int) then l[l.length - (-i).toNat]?
  else none

/-- Python `l.index(a)`: index of the first occurrence of `a` in `l`
(`l.length` if absent, in which case Python would raise `ValueError`;
the engine only calls it on a list that contains `a`). -/
def pyIndex (a : String) : List String → Nat
  | [] => 0
  | b :: l => if b = a then 0 else pyIndex a l + 1

/-- `QuizEngine.__init__`: empty question list, cursor and score at `0`,
no start time, empty timing log and answer history. -/
def QuizEngine.init : QuizEngine :=
  { questions := []
    current_question := 0
    score := 0
    start_time := none
    question_times := []
    user_answers := [] }

/-- `QuizEngine.load_questions`: stores the given list and resets every
other field, recording the session start time (`time.time()`, passed here
as `now`). -/
def QuizEngine.load_questions (_e : QuizEngine) (questions : List Question)
    (now : ℚ) : QuizEngine :=
  { questions := questions
    current_question := 0
    score := 0
    start_time := some now
    question_times := []
    user_answers := [] }

/-- The body of `QuizEngine.get_current_question` past the bounds check:
`question.copy()` extended with the shuffled answer list
(`incorrect_answers + [correct_answer]` permuted by `sh`, the outcome of
`random.shuffle`) and `correct_index = all_answers.index(correct_answer)`. -/
def presentQ (sh : List String → List String) (q : Question) :
    PresentedQuestion :=
  let all_answers := sh (q.incorrect_answers ++ [q.correct_answer])
  { question := q.question
    correct_answer := q.correct_answer
    incorrect_answers := q.incorrect_answers
    category := q.category
    difficulty := q.difficulty
    shuffled_answers := all_answers
    correct_index := pyIndex q.correct_answer all_answers }

/-- `QuizEngine.get_current_question`: `None` when
`current_question >= len(questions)`, otherwise the presented form of the
question at the cursor. -/
def QuizEngine.get_current_question (e : QuizEngine)
    (sh : List String → List String) : Option PresentedQuestion :=
  if h : e.current_question < e.questions.length then
    some (presentQ sh (e.questions.get ⟨e.current_question, h⟩))
  else none

/-- `QuizEngine.get_current_question` translated statement by statement as a
state transformer, to make its frame effect a theorem rather than a
convention: `question = self.questions[...].copy()` binds a copy (so the
added keys never touch the stored dict), `all_answers = ... + [...]` builds
a fresh list (so `random.shuffle` permutes the fresh list, not the stored
`incorrect_answers`), no assignment targets `self`, and the final state is
returned alongside the result. -/
def QuizEngine.get_current_question_run (e : QuizEngine)
    (sh : List String → List String) : Option PresentedQuestion × QuizEngine :=
  if h : e.current_question < e.questions.length then
    let question := e.questions.get ⟨e.current_question, h⟩
    let all_answers := sh (question.incorrect_answers ++ [question.correct_answer])
    (some { question := question.question
            correct_answer := question.correct_answer
            incorrect_answers := question.incorrect_answers
            category := question.category
            difficulty := question.difficulty
            shuffled_answers := all_answers
            correct_index := pyIndex question.correct_answer all_answers }, e)
  else (none, e)

/-- The state written by a successful `QuizEngine.submit_answer`: score
bumped when correct, the answer dict and the time appended, cursor advanced. -/
def submitState (e : QuizEngine) (pq : PresentedQuestion) (ua : String)
    (is_correct : Bool) (t : ℚ) : QuizEngine :=
  { e with
    score := if is_correct then e.score + 1 else e.score
    user_answers := e.user_answers ++
      [{ question := pq.question
         user_answer := ua
         correct_answer := pq.correct_answer
         is_correct := is_correct
         time_taken := t }]
    question_times := e.question_times ++ [t]
    current_question := e.current_question + 1 }

/-- `QuizEngine.submit_answer`: returns `False` untouched when the session
is exhausted; otherwise re-derives the current question (fresh shuffle!),
grades `answer_index == correct_index`, and records the answer. The lookup
`question.shuffled_answers[answer_index]` can raise `IndexError` (`none`);
in Python the raise happens after `is_correct` is computed and the score
conditionally bumped, but an index outside `pyGet`'s range never equals a
`correct_index` produced by `list.index` on a permutation, so the state is
unchanged when the exception escapes. -/
def QuizEngine.submit_answer (e : QuizEngine)
    (sh : List String → List String) (answer_index : Int) (time_taken : ℚ) :
    Option (Bool × QuizEngine) :=
  if e.questions.length ≤ e.current_question then some (false, e)
  else
    match e.get_current_question sh with
    | none => none
    | some question =>
      match pyGet question.shuffled_answers answer_index with
      | none => none
      | some ua =>
        some (decide (answer_index = (question.correct_index : Int)),
          submitState e question ua
            (decide (answer_index = (question.correct_index : Int))) time_taken)

/-- `QuizEngine.get_progress`: `(current_question, len(questions))`. -/
def QuizEngine.get_progress (e : QuizEngine) : Nat × Nat :=
  (e.current_question, e.questions.length)

/-- `QuizEngine.get_final_results`, with `time.time()` passed as `now`.
`total_time` follows Python truthiness: `self.start_time` is falsy both when
`None` and when `0.0`. `percentage` and `average_time_per_question` guard on
the truthiness (non-emptiness) of `questions` / `question_times`. -/
def QuizEngine.get_final_results (e : QuizEngine) (now : ℚ) : SessionResult :=
  { score := e.score
    total_questions := e.questions.length
    percentage :=
      if e.questions.length ≠ 0 then
        ((e.score : ℚ) / (e.questions.length : ℚ)) * 100
      else 0
    total_time :=
      match e.start_time with
      | some t => if t ≠ 0 then now - t else 0
      | none => 0
    average_time_per_question :=
      if e.question_times.length ≠ 0 then
        e.question_times.sum / (e.question_times.length : ℚ)
      else 0
    user_answers := e.user_answers }

/-- One externally observable engine operation other than a reload: either a
read-only call (`get_current_question`, `get_progress`, `get_final_results`,
or a `submit_answer` whose `IndexError` escapes, all of which leave the state
as it was), or a completed `submit_answer` with some shuffle outcome `sh`
(a permutation, as `random.shuffle` guarantees). -/
inductive Step : QuizEngine → QuizEngine → Prop
  | query (e : QuizEngine) : Step e e
  | submit {e e' : QuizEngine} {b : Bool} (sh : List String → List String)
      (hsh : ∀ l, (sh l).Perm l) (i : Int) (t : ℚ) :
      e.submit_answer sh i t = some (b, e') → Step e e'

/-- Engine states reachable after some `load_questions` call followed by any
sequence of engine operations. -/
inductive Reachable : QuizEngine → Prop
  | load (e : QuizEngine) (qs : List Question) (now : ℚ) :
      Reachable (e.load_questions qs now)
  | step {e e' : QuizEngine} : Reachable e → Step e e' → Reachable e'

/-! ## Helper lemmas about the embedded primitives -/

theorem pyIndex_lt_length {a : String} {l : List String} (h : a ∈ l) :
    pyIndex a l < l.length := by
  induction l with
  | nil => cases h
  | cons b l ih =>
    by_cases hb : b = a
    · simp [pyIndex, hb]
    · rcases List.mem_cons.mp h with h1 | h2
      · exact absurd h1.symm hb
      · simpa [pyIndex, hb] using Nat.succ_lt_succ (ih h2)

theorem getElem?_pyIndex {a : String} {l : List String} (h : a ∈ l) :
    l[pyIndex a l]? = some a := by
  induction l with
  | nil => cases h
  | cons b l ih =>
    by_cases hb : b = a
    · simp [pyIndex, hb]
    · rcases List.mem_cons.mp h with h1 | h2
      · exact absurd h1.symm hb
      · simpa [pyIndex, hb] using ih h2

theorem pyGet_eq_none_of_ge {α : Type} {l : List α} {i : Int}
    (h : (l.length : Int) ≤ i) : pyGet l i = none := by
  have h0 : 0 ≤ i := le_trans (Int.ofNat_nonneg _) h
  rw [pyGet, if_pos h0, List.getElem?_eq_none]
  omega

theorem pyGet_eq_none_of_lt {α : Type} {l : List α} {i : Int}
    (h : i < -(l.length : Int)) : pyGet l i = none := by
  rw [pyGet, if_neg (by omega), if_neg (by omega)]

theorem pyGet_neg_isSome {α : Type} {l : List α} {i : Int}
    (h1 : -(l.length : Int) ≤ i) (h2 : i < 0) :
    ∃ a, pyGet l i = some a := by
  rw [pyGet, if_neg (by omega), if_pos (by omega)]
  have hlt : l.length - (-i).toNat < l.length := by omega
  exact ⟨l.get ⟨_, hlt⟩, List.getElem?_eq_getElem hlt⟩

theorem pyGet_nonneg_lt {α : Type} {l : List α} {i : Int}
    (h0 : 0 ≤ i) (hlt : i < (l.length : Int)) :
    pyGet l i = l[i.toNat]? ∧ ∃ a, pyGet l i = some a := by
  rw [pyGet, if_pos h0]
  have hlt' : i.toNat < l.length := by omega
  exact ⟨rfl, ⟨l.get ⟨_, hlt'⟩, List.getElem?_eq_getElem hlt'⟩⟩

/-! ## Helper lemmas about the engine operations -/

theorem get_current_question_eq_some {e : QuizEngine}
    {sh : List String → List String} {pq : PresentedQuestion}
    (h : e.get_current_question sh = some pq) :
    ∃ hlt : e.current_question < e.questions.length,
      pq = presentQ sh (e.questions.get ⟨e.current_question, hlt⟩) := by
  unfold QuizEngine.get_current_question at h
  split at h
  · next hlt =>
    injection h with h
    exact ⟨hlt, h.symm⟩
  · cases h

theorem get_current_question_eq_none_iff {e : QuizEngine}
    {sh : List String → List String} :
    e.get_current_question sh = none ↔
      e.questions.length ≤ e.current_question := by
  unfold QuizEngine.get_current_question
  split
  · next hlt =>
    exact ⟨fun h => Option.noConfusion h, fun h => absurd hlt (Nat.not_lt.mpr h)⟩
  · next hge => exact ⟨fun _ => Nat.le_of_not_lt hge, fun _ => rfl⟩

theorem get_current_question_of_lt {e : QuizEngine}
    {sh : List String → List String}
    (hlt : e.current_question < e.questions.length) :
    e.get_current_question sh =
      some (presentQ sh (e.questions.get ⟨e.current_question, hlt⟩)) := by
  unfold QuizEngine.get_current_question
  rw [dif_pos hlt]

theorem submit_answer_of_get {e : QuizEngine}
    {sh : List String → List String} {pq : PresentedQuestion}
    {i : Int} {t : ℚ} {ua : String}
    (hpq : e.get_current_question sh = some pq)
    (hua : pyGet pq.shuffled_answers i = some ua) :
    e.submit_answer sh i t =
      some (decide (i = (pq.correct_index : Int)),
        submitState e pq ua (decide (i = (pq.correct_index : Int))) t) := by
  obtain ⟨hlt, -⟩ := get_current_question_eq_some hpq
  unfold QuizEngine.submit_answer
  rw [if_neg (Nat.not_le.mpr hlt), hpq]
  simp only [hua]

theorem submit_answer_none_of_get {e : QuizEngine}
    {sh : List String → List String} {pq : PresentedQuestion}
    {i : Int} {t : ℚ}
    (hpq : e.get_current_question sh = some pq)
    (hua : pyGet pq.shuffled_answers i = none) :
    e.submit_answer sh i t = none := by
  obtain ⟨hlt, -⟩ := get_current_question_eq_some hpq
  unfold QuizEngine.submit_answer
  rw [if_neg (Nat.not_le.mpr hlt), hpq]
  simp only [hua]

theorem submit_answer_eq_some {e e' : QuizEngine}
    {sh : List String → List String} {i : Int} {t : ℚ} {b : Bool}
    (h : e.submit_answer sh i t = some (b, e')) :
    (e.questions.length ≤ e.current_question ∧ b = false ∧ e' = e) ∨
    ∃ pq ua, e.get_current_question sh = some pq ∧
      pyGet pq.shuffled_answers i = some ua ∧
      b = decide (i = (pq.correct_index : Int)) ∧
      e' = submitState e pq ua b t := by
  unfold QuizEngine.submit_answer at h
  split at h
  · next hle =>
    simp only [Option.some.injEq, Prod.mk.injEq] at h
    exact Or.inl ⟨hle, h.1.symm, h.2.symm⟩
  · next hgt =>
    split at h
    · cases h
    · next pq hpq =>
      split at h
      · cases h
      · next ua hua =>
        simp only [Option.some.injEq, Prod.mk.injEq] at h
        exact Or.inr ⟨pq, ua, hpq, hua, h.1.symm, by rw [← h.2, h.1]⟩

/-! ## The session invariant -/

/-- Invariant maintained by every engine operation after a load: the score
never exceeds the cursor, the cursor never exceeds the question count, and
the score counts the correct entries of the answer history. -/
def SessionInv (e : QuizEngine) : Prop :=
  e.score ≤ e.current_question ∧
  e.current_question ≤ e.questions.length ∧
  e.score = (List.filter (fun r => r.is_correct) e.user_answers).length

theorem sessionInv_load (e : QuizEngine) (qs : List Question) (now : ℚ) :
    SessionInv (e.load_questions qs now) :=
  ⟨Nat.le_refl 0, Nat.zero_le _, rfl⟩

theorem sessionInv_step {e e' : QuizEngine} (hi : SessionInv e) (hs : Step e e') : SessionInv e' := by
  cases hs with
  | query => exact hi
  | submit sh hsh i t h =>
    rcases submit_answer_eq_some h with ⟨-, -, rfl⟩ | ⟨pq, ua, hpq, hua, hb, rfl⟩
    · exact hi
    · obtain ⟨hlt, -⟩ := get_current_question_eq_some hpq
      obtain ⟨h1, h2, h3⟩ := hi
      refine ⟨?_, ?_, ?_⟩
      · rename_i b
        cases b <;> simp [submitState] <;> omega
      · simpa [submitState] using hlt
      · rename_i b
        cases b <;> simp [submitState, List.filter_append, h3]

theorem reachable_sessionInv {e : QuizEngine} (h : Reachable e) : SessionInv e := by
  induction h with
  | load e qs now => exact sessionInv_load e qs now
  | step _ hs ih => exact sessionInv_step ih hs

/-! ## Concrete objects for witnesses and counterexamples -/

/-- A concrete four-answer question (one correct answer, three distractors). -/
def q0 : Question :=
  { question := "What is 2+2?"
    correct_answer := "4"
    incorrect_answers := ["3", "5", "22"]
    category := "Math"
    difficulty := "easy" }

/-- A freshly loaded one-question session over `q0`. -/
def e0 : QuizEngine := QuizEngine.init.load_questions [q0] 0

/-- The presented form of `q0` when `random.shuffle` happens to leave the
order unchanged (the identity is one of its possible outcomes). -/
def pq0 : PresentedQuestion := presentQ id q0

/-! ## The claims -/

/-- C1 counterexample: the claim says `submit_answer` never raises for an
`answer_index` outside `[0, len(shuffled_answers))` and records a not-found
indicator as the user answer. On the code, `answer_index = 4` against the
four-answer question `q0` makes `question['shuffled_answers'][4]` raise
`IndexError` (modelled as `none`); and for the sentinel `-1`, Python's
negative indexing selects the *last* shuffled answer, so the appended record
carries the text `"4"` — an actual answer (here even the correct one's
text), not a not-found indicator. -/
theorem C1_counterexample :
    e0.submit_answer id 4 0 = none ∧
    e0.submit_answer id (-1) 0 = some (false, submitState e0 pq0 "4" false 0) := by
  decide

/-- C1 (amended): for an in-progress session, an `answer_index` in
`[-len(shuffled_answers), -1]` does not raise: the submission is graded
incorrect (`false`, score unchanged), an AnswerRecord is appended whose
`user_answer` is the shuffled answer at the wrapped position
`len + answer_index` (not a not-found indicator), the time is appended and
the cursor advances; an `answer_index` that is `≥ len` or `< -len` raises
`IndexError` instead of returning. -/
theorem C1_out_of_range_submit (e : QuizEngine)
    (sh : List String → List String) (pq : PresentedQuestion) (i : Int) (t : ℚ)
    (hpq : e.get_current_question sh = some pq) :
    (-(pq.shuffled_answers.length : Int) ≤ i → i < 0 →
      ∃ ua, pyGet pq.shuffled_answers i = some ua ∧
        e.submit_answer sh i t = some (false, submitState e pq ua false t) ∧
        (submitState e pq ua false t).score = e.score) ∧
    ((pq.shuffled_answers.length : Int) ≤ i ∨
        i < -(pq.shuffled_answers.length : Int) →
      e.submit_answer sh i t = none) := by
  constructor
  · intro h1 h2
    obtain ⟨ua, hua⟩ := pyGet_neg_isSome h1 h2
    have hb : decide (i = (pq.correct_index : Int)) = false := by
      simp only [decide_eq_false_iff_not]
      omega
    refine ⟨ua, hua, ?_, rfl⟩
    have hs := submit_answer_of_get (t := t) hpq hua
    rwa [hb] at hs
  · rintro (h | h)
    · exact submit_answer_none_of_get hpq (pyGet_eq_none_of_ge h)
    · exact submit_answer_none_of_get hpq (pyGet_eq_none_of_lt h)

/-- C1 witness: the amended theorem applied to the concrete one-question
session `e0` with the sentinel index `-1`. -/
theorem C1_out_of_range_submit_witness :
    (-(pq0.shuffled_answers.length : Int) ≤ -1 → (-1 : Int) < 0 →
      ∃ ua, pyGet pq0.shuffled_answers (-1) = some ua ∧
        e0.submit_answer id (-1) 0 = some (false, submitState e0 pq0 ua false 0) ∧
        (submitState e0 pq0 ua false 0).score = e0.score) ∧
    ((pq0.shuffled_answers.length : Int) ≤ -1 ∨
        (-1 : Int) < -(pq0.shuffled_answers.length : Int) →
      e0.submit_answer id (-1) 0 = none) :=
  C1_out_of_range_submit e0 id pq0 (-1) 0 (by decide)

/-- C2: for an in-progress session and a valid `answer_index` in
`[0, len(shuffled_answers))`, `submit_answer` returns exactly the boolean
`answer_index == correct_index` of the presented question it internally
derived for grading (shuffle outcome `sh`), increments the score by one
exactly when that boolean is true, appends one AnswerRecord and one timing
entry, and advances the cursor by one. -/
theorem C2_valid_submit_grades (e : QuizEngine)
    (sh : List String → List String) (pq : PresentedQuestion) (i : Int) (t : ℚ)
    (hpq : e.get_current_question sh = some pq)
    (h0 : 0 ≤ i) (hlt : i < (pq.shuffled_answers.length : Int)) :
    ∃ e' ua, pq.shuffled_answers[i.toNat]? = some ua ∧
      e.submit_answer sh i t =
        some (decide (i = (pq.correct_index : Int)), e') ∧
      e'.score = (if i = (pq.correct_index : Int) then e.score + 1 else e.score) ∧
      e'.user_answers = e.user_answers ++
        [{ question := pq.question
           user_answer := ua
           correct_answer := pq.correct_answer
           is_correct := decide (i = (pq.correct_index : Int))
           time_taken := t }] ∧
      e'.question_times = e.question_times ++ [t] ∧
      e'.current_question = e.current_question + 1 := by
  obtain ⟨hpg, ua, hua⟩ := pyGet_nonneg_lt h0 hlt
  refine ⟨submitState e pq ua (decide (i = (pq.correct_index : Int))) t, ua,
    ?_, submit_answer_of_get hpq hua, ?_, rfl, rfl, rfl⟩
  · rw [← hpg]
    exact hua
  · by_cases hc : i = (pq.correct_index : Int) <;> simp [submitState, hc]

/-- C2 witness: the theorem applied to the concrete session `e0` with the
identity shuffle and the correct index `3`. -/
theorem C2_valid_submit_grades_witness :
    (0 : Int) ≤ 3 ∧ (3 : Int) < (pq0.shuffled_answers.length : Int) ∧
    ∃ e' ua, pq0.shuffled_answers[(3 : Int).toNat]? = some ua ∧
      e0.submit_answer id 3 0 =
        some (decide ((3 : Int) = (pq0.correct_index : Int)), e') ∧
      e'.score = (if (3 : Int) = (pq0.correct_index : Int) then e0.score + 1 else e0.score) ∧
      e'.user_answers = e0.user_answers ++
        [{ question := pq0.question
           user_answer := ua
           correct_answer := pq0.correct_answer
           is_correct := decide ((3 : Int) = (pq0.correct_index : Int))
           time_taken := 0 }] ∧
      e'.question_times = e0.question_times ++ [0] ∧
      e'.current_question = e0.current_question + 1 :=
  ⟨by decide, by decide,
    C2_valid_submit_grades e0 id pq0 3 0 (by decide) (by decide) (by decide)⟩

/-- C3: submitting when `position ≥ total` (all questions answered, or zero
questions loaded) is a no-op: `submit_answer` returns `false` and hands back
the state unchanged — same score, cursor, answer history and timing log. -/
theorem C3_submit_after_complete_noop (e : QuizEngine)
    (sh : List String → List String) (i : Int) (t : ℚ)
    (h : e.questions.length ≤ e.current_question) :
    e.submit_answer sh i t = some (false, e) := by
  unfold QuizEngine.submit_answer
  rw [if_pos h]

/-- C3 witness: submitting into a freshly loaded empty session. -/
theorem C3_submit_after_complete_noop_witness :
    (QuizEngine.init.load_questions [] 0).questions.length ≤
        (QuizEngine.init.load_questions [] 0).current_question ∧
    (QuizEngine.init.load_questions [] 0).submit_answer id 7 0 =
      some (false, QuizEngine.init.load_questions [] 0) :=
  ⟨by decide, C3_submit_after_complete_noop _ id 7 0 (by decide)⟩

/-- C4: in every state reachable by any sequence of engine operations after
a load, the score is at most the number of loaded questions and equals the
number of answer-history records whose `is_correct` field is true. -/
theorem C4_score_invariant (e : QuizEngine) (hr : Reachable e) :
    e.score ≤ e.questions.length ∧
    e.score = (List.filter (fun r => r.is_correct) e.user_answers).length := by
  obtain ⟨h1, h2, h3⟩ := reachable_sessionInv hr
  exact ⟨le_trans h1 h2, h3⟩

/-- C4 witness: the invariant at a freshly loaded empty session. -/
theorem C4_score_invariant_witness :
    (QuizEngine.init.load_questions [] 0).score ≤
        (QuizEngine.init.load_questions [] 0).questions.length ∧
    (QuizEngine.init.load_questions [] 0).score =
      (List.filter (fun r => r.is_correct)
        (QuizEngine.init.load_questions [] 0).user_answers).length :=
  C4_score_invariant _ (Reachable.load QuizEngine.init [] 0)

/-- C5: in every state reachable after a load, `get_current_question`
returns `None` exactly when the cursor equals the number of loaded
questions; below the total it returns the presented form of the stored
question at the cursor (same text, correct answer, distractors, category
and difficulty). -/
theorem C5_current_question_none_iff (e : QuizEngine) (hr : Reachable e)
    (sh : List String → List String) :
    (e.get_current_question sh = none ↔
      e.current_question = e.questions.length) ∧
    ∀ hlt : e.current_question < e.questions.length,
      ∃ pq, e.get_current_question sh = some pq ∧
        pq.question = (e.questions.get ⟨e.current_question, hlt⟩).question ∧
        pq.correct_answer =
          (e.questions.get ⟨e.current_question, hlt⟩).correct_answer ∧
        pq.incorrect_answers =
          (e.questions.get ⟨e.current_question, hlt⟩).incorrect_answers ∧
        pq.category = (e.questions.get ⟨e.current_question, hlt⟩).category ∧
        pq.difficulty = (e.questions.get ⟨e.current_question, hlt⟩).difficulty := by
  obtain ⟨-, h2, -⟩ := reachable_sessionInv hr
  constructor
  · rw [get_current_question_eq_none_iff]
    omega
  · intro hlt
    exact ⟨presentQ sh (e.questions.get ⟨e.current_question, hlt⟩),
      get_current_question_of_lt hlt, rfl, rfl, rfl, rfl, rfl⟩

/-- C5 witness: the theorem at the concrete one-question session `e0`. -/
theorem C5_current_question_none_iff_witness :
    (e0.get_current_question id = none ↔
      e0.current_question = e0.questions.length) ∧
    ∀ hlt : e0.current_question < e0.questions.length,
      ∃ pq, e0.get_current_question id = some pq ∧
        pq.question = (e0.questions.get ⟨e0.current_question, hlt⟩).question ∧
        pq.correct_answer =
          (e0.questions.get ⟨e0.current_question, hlt⟩).correct_answer ∧
        pq.incorrect_answers =
          (e0.questions.get ⟨e0.current_question, hlt⟩).incorrect_answers ∧
        pq.category = (e0.questions.get ⟨e0.current_question, hlt⟩).category ∧
        pq.difficulty = (e0.questions.get ⟨e0.current_question, hlt⟩).difficulty :=
  C5_current_question_none_iff e0 (Reachable.load QuizEngine.init [q0] 0) id

/-- C6: for a question whose correct answer is not among its distractors,
every presented question has `shuffled_answers` that is a permutation of
`incorrect_answers ++ [correct_answer]` — so the correct answer occurs
exactly once — and `correct_index` points at the correct answer. -/
theorem C6_shuffle_permutation (e : QuizEngine)
    (sh : List String → List String) (hsh : ∀ l, (sh l).Perm l)
    (pq : PresentedQuestion)
    (hpq : e.get_current_question sh = some pq)
    (hnd : pq.correct_answer ∉ pq.incorrect_answers) :
    pq.shuffled_answers.Perm (pq.incorrect_answers ++ [pq.correct_answer]) ∧
    pq.shuffled_answers.count pq.correct_answer = 1 ∧
    pq.shuffled_answers[pq.correct_index]? = some pq.correct_answer := by
  obtain ⟨hlt, rfl⟩ := get_current_question_eq_some hpq
  simp only [presentQ] at hnd ⊢
  have hperm := hsh ((e.questions.get ⟨e.current_question, hlt⟩).incorrect_answers ++
    [(e.questions.get ⟨e.current_question, hlt⟩).correct_answer])
  have hmem : (e.questions.get ⟨e.current_question, hlt⟩).correct_answer ∈
      sh ((e.questions.get ⟨e.current_question, hlt⟩).incorrect_answers ++
        [(e.questions.get ⟨e.current_question, hlt⟩).correct_answer]) :=
    hperm.mem_iff.mpr (by simp)
  refine ⟨hperm, ?_, getElem?_pyIndex hmem⟩
  rw [hperm.count_eq, List.count_append, List.count_eq_zero.mpr hnd]
  simp

/-- C6 witness: the theorem at the concrete session `e0` with the identity
shuffle. -/
theorem C6_shuffle_permutation_witness :
    pq0.correct_answer ∉ pq0.incorrect_answers ∧
    (pq0.shuffled_answers.Perm (pq0.incorrect_answers ++ [pq0.correct_answer]) ∧
     pq0.shuffled_answers.count pq0.correct_answer = 1 ∧
     pq0.shuffled_answers[pq0.correct_index]? = some pq0.correct_answer) :=
  ⟨by decide,
    C6_shuffle_permutation e0 id (fun l => List.Perm.refl l) pq0 (by decide) (by decide)⟩

/-- C7: `get_final_results` reports `percentage = 0` when no questions are
loaded and `100 * score / total` otherwise, and reports
`average_time_per_question = 0` when the timing log is empty — never
dividing by zero. -/
theorem C7_final_results_percentage (e : QuizEngine) (now : ℚ) :
    (e.questions.length = 0 → (e.get_final_results now).percentage = 0) ∧
    (e.questions.length ≠ 0 →
      (e.get_final_results now).percentage =
        100 * (e.score : ℚ) / (e.questions.length : ℚ)) ∧
    (e.question_times = [] →
      (e.get_final_results now).average_time_per_question = 0) := by
  refine ⟨fun h => ?_, fun h => ?_, fun h => ?_⟩
  · simp [QuizEngine.get_final_results, h]
  · simp only [QuizEngine.get_final_results, if_pos h]
    ring
  · simp [QuizEngine.get_final_results, h]

/-- C7 witness: the zero-question branch at the initial engine, the
non-zero branch and the empty-timing-log branch at the concrete session
`e0`. -/
theorem C7_final_results_percentage_witness :
    (QuizEngine.init.get_final_results 0).percentage = 0 ∧
    (e0.get_final_results 0).percentage =
      100 * (e0.score : ℚ) / (e0.questions.length : ℚ) ∧
    (e0.get_final_results 0).average_time_per_question = 0 :=
  ⟨(C7_final_results_percentage QuizEngine.init 0).1 rfl,
   (C7_final_results_percentage e0 0).2.1 (by decide),
   (C7_final_results_percentage e0 0).2.2 rfl⟩

/-- C8: after a load, the second component of `get_progress` (the total) is
unchanged by every further operation, and the first component (the cursor)
never decreases and never exceeds the total. -/
theorem C8_progress_monotone (e e' : QuizEngine) (hr : Reachable e)
    (hs : Step e e') :
    (e'.get_progress).2 = (e.get_progress).2 ∧
    (e.get_progress).1 ≤ (e'.get_progress).1 ∧
    (e'.get_progress).1 ≤ (e'.get_progress).2 := by
  have h2 := (sessionInv_step (reachable_sessionInv hr) hs).2.1
  cases hs with
  | query => exact ⟨rfl, Nat.le_refl _, h2⟩
  | submit sh hsh i t h =>
    rcases submit_answer_eq_some h with ⟨-, -, rfl⟩ | ⟨pq, ua, hpq, hua, hb, rfl⟩
    · exact ⟨rfl, Nat.le_refl _, h2⟩
    · exact ⟨rfl, Nat.le_succ _, h2⟩

/-- C8 witness: a read-only step on the concrete session `e0`. -/
theorem C8_progress_monotone_witness :
    (e0.get_progress).2 = (e0.get_progress).2 ∧
    (e0.get_progress).1 ≤ (e0.get_progress).1 ∧
    (e0.get_progress).1 ≤ (e0.get_progress).2 :=
  C8_progress_monotone e0 e0 (Reachable.load QuizEngine.init [q0] 0)
    (Step.query e0)

/-- C9: `load_questions` resets the whole session state — cursor and score
to `0`, empty timing log and answer history, the question list set to
exactly the given list, the start time recorded — and loading the empty
list yields a session whose `get_current_question` immediately returns
`None`. -/
theorem C9_load_resets (e : QuizEngine) (qs : List Question) (now : ℚ)
    (sh : List String → List String) :
    e.load_questions qs now =
      { questions := qs
        current_question := 0
        score := 0
        start_time := some now
        question_times := []
        user_answers := [] } ∧
    (e.load_questions [] now).get_current_question sh = none :=
  ⟨rfl, rfl⟩

/-- C10: `get_current_question` changes no engine state: its statement-level
translation returns the state exactly as it was, alongside the same value
the pure reading computes. -/
theorem C10_get_current_question_pure (e : QuizEngine)
    (sh : List String → List String) :
    (e.get_current_question_run sh).2 = e ∧
    (e.get_current_question_run sh).1 = e.get_current_question sh := by
  by_cases h : e.current_question < e.questions.length <;>
    exact ⟨by simp [QuizEngine.get_current_question_run, h],
           by simp [QuizEngine.get_current_question_run,
                    QuizEngine.get_current_question, presentQ, h]⟩
